import Mathlib

/-
Verification of the Cortex JSON-RPC-over-WebSocket client (src/index.js).

The embedding models the client as a pure state machine:
* `Cortex.JValue` is the parsed JSON universe with JavaScript truthiness;
  an absent object property is `Option.none` (JavaScript `undefined`).
* `Cortex.call` models `Cortex.call` (src/index.js:159-175): id allocation,
  frame send, and registration of the pending-request handler.
* `Cortex.onmsg` models `Cortex._onmsg` (src/index.js:91-115), including the
  eager evaluation of the log arguments on line 99, which dereferences
  `data.error.message` whenever `data.result` is falsy.
* `Cortex.invokeBound` models the closure installed by `defineMethod`
  (src/index.js:176-195).
* `Cortex.chainStep` models the chain-sugar proxy of `makeChainablePromise`
  (src/index.js:29-48) over a denotational promise model with settlement times.
* `Cortex.initTrace` models the sequence of RPC calls issued by `Cortex.init`
  (src/index.js:125-152) on its success path.
Numeric JSON values are modelled as integers (every id and payload in the
properties under study is an integer; float-only behaviour such as NaN
truthiness is out of scope).
-/

namespace Cortex

/-- Parsed JSON values as produced by `JSON.parse`. An absent object property
is represented by `Option.none` at lookup time (JavaScript `undefined`),
never by a `JValue` constructor. -/
inductive JValue where
  | null
  | bool (b : Bool)
  | num (n : Int)
  | str (s : String)
  | arr (elems : List JValue)
  | obj (fields : List (String × JValue))
deriving Repr

/-- JavaScript truthiness of a parsed JSON value: `null`, `false`, `0` and the
empty string are falsy; every array and object is truthy. -/
def JValue.truthy : JValue → Bool
  | .null => false
  | .bool b => b
  | .num n => n != 0
  | .str s => s != ""
  | .arr _ => true
  | .obj _ => true

/-- Truthiness of a possibly-absent value: `undefined` is falsy. -/
def truthyOpt : Option JValue → Bool
  | none => false
  | some v => v.truthy

/-- Property lookup `o[k]`: the value of the first binding of key `k`
(`JSON.parse` yields unique keys), `none` when the key is absent. -/
def getField : List (String × JValue) → String → Option JValue
  | [], _ => none
  | p :: rest, k => if p.1 == k then some p.2 else getField rest k

/-- JavaScript loose equality `v == null`: true exactly for `null` and
`undefined`, false for every other value including `0`, `false` and `""`. -/
def looseNull : Option JValue → Bool
  | none => true
  | some .null => true
  | some _ => false

/-- Whether evaluating `v.message` throws a TypeError: property access throws
exactly on `undefined` and `null`; on any other value it yields a (possibly
undefined) property without throwing. -/
def msgAccessThrows : Option JValue → Bool
  | none => true
  | some .null => true
  | some _ => false

/-- `Array.isArray(v)` on a possibly-absent value. -/
def isArray : Option JValue → Bool
  | some (.arr _) => true
  | _ => false

/-- How the handler installed by `Cortex.call` settles a request:
resolved with the result payload, rejected with a `JSONRPCError` built from
the error payload, or rejected with `Error('Invalid JSON-RPC response')`. -/
inductive CallOutcome where
  | resolved (v : JValue)
  | rejectedRpc (err : JValue)
  | rejectedInvalid
deriving Repr

/-- One outbound frame `{jsonrpc, method, params, id}` written to the socket. -/
structure SentFrame where
  method : String
  params : List (String × JValue)
  id : Int
deriving Repr

/-- The mutable state of a `Cortex` instance: the id counter `msgId`, the
pending-request table `requests` (here the list of pending ids plus the log of
settlements the handlers have produced), the frames written to the socket, the
stored auth token `_auth`, and whether the close listener has fired. -/
structure CortexState where
  msgId : Int
  pending : List Int
  settled : List (Int × CallOutcome)
  sent : List SentFrame
  auth : Option JValue
  closed : Bool
deriving Repr

/-- The state of a freshly constructed client: `msgId = 0`, empty request
table, nothing sent, no stored token. -/
def CortexState.initial : CortexState :=
  { msgId := 0, pending := [], settled := [], sent := [], auth := none, closed := false }

/-- `Cortex.call` (src/index.js:159-175): allocate the next integer id,
send the envelope, and record a pending request under that id. Returns the
new state and the assigned correlation id. -/
def call (st : CortexState) (method : String) (params : List (String × JValue)) :
    CortexState × Int :=
  let id := st.msgId
  ({ st with
      msgId := id + 1
      sent := st.sent ++ [⟨method, params, id⟩]
      pending := st.pending ++ [id] }, id)

/-- The handler body installed by `Cortex.call` (src/index.js:167-173):
`if (err) reject(new JSONRPCError(err)); if (data) resolve(data);
reject(new Error('Invalid JSON-RPC response'))`, with JavaScript truthiness
on both tests. -/
def requestHandler (err res : Option JValue) : CallOutcome :=
  if truthyOpt err then .rejectedRpc (err.getD .null)
  else if truthyOpt res then .resolved (res.getD .null)
  else .rejectedInvalid

/-- The result of one `_onmsg` dispatch: the state afterwards, the stream
events emitted (name paired with the full frame), and whether the handler
threw a TypeError before completing (in which case the state is unchanged). -/
structure OnMsgResult where
  state : CortexState
  events : List (String × JValue)
  threwTypeError : Bool
deriving Repr

/-- `Cortex._onmsg` (src/index.js:91-115) applied to an already-parsed frame.
Falsy parses are dropped (the `if (!data)` guard). For a frame with an `id`
key, line 99 eagerly evaluates its log arguments: when `data.result` is falsy
it dereferences `data.error.message`, which throws a TypeError when the error
payload is absent or null, so the handler never runs. Otherwise the pending
entry for a numeric id is settled by `requestHandler` and removed (responses
carry the numeric id of the envelope they answer; unknown ids are warned and
dropped). For a frame with `sid` but no `id`, every key other than `sid` and
`time` whose value is an array is emitted as a stream event carrying the full
frame. Anything else is logged as unrecognised. Using the `in` operator on a
truthy primitive throws a TypeError. -/
def onmsg (st : CortexState) (data : JValue) : OnMsgResult :=
  if !data.truthy then ⟨st, [], false⟩
  else
    match data with
    | .obj fields =>
      if (getField fields "id").isSome then
        if !truthyOpt (getField fields "result")
            && msgAccessThrows (getField fields "error") then
          ⟨st, [], true⟩
        else
          match getField fields "id" with
          | some (.num n) =>
            if st.pending.contains n then
              ⟨{ st with
                  pending := st.pending.filter (fun i => i != n)
                  settled := st.settled ++
                    [(n, requestHandler (getField fields "error")
                          (getField fields "result"))] },
                [], false⟩
            else ⟨st, [], false⟩
          | _ => ⟨st, [], false⟩
      else if (getField fields "sid").isSome then
        ⟨st,
          ((fields.map Prod.fst).filter (fun k =>
            k != "sid" && k != "time" && isArray (getField fields k))).map
              (fun k => (k, data)),
          false⟩
      else ⟨st, [], false⟩
    | .arr _ => ⟨st, [], false⟩
    | _ => ⟨st, [], true⟩

/-- The close listener (src/index.js:75-78): it only replaces `this.call` with
`() => this.APIResult.reject(new Error('socket closed'))`, disabling future
sends; the pending-request table and the settlement log are not touched. -/
def onSocketClose (st : CortexState) : CortexState :=
  { st with closed := true }

/-- A parameter descriptor `{name, required}` from `inspectApi`. -/
structure ParamDef where
  name : String
  required : Bool
deriving Repr

/-- `paramDefs.some(p => p.name === '_auth')` (src/index.js:178). -/
def needsAuth (paramDefs : List ParamDef) : Bool :=
  paramDefs.any (fun p => p.name == "_auth")

/-- `paramDefs.filter(p => p.required).map(p => p.name)` (src/index.js:179). -/
def requiredParams (paramDefs : List ParamDef) : List String :=
  (paramDefs.filter (fun p => p.required)).map (fun p => p.name)

/-- Setting one property as `Object.assign({}, params, {"_auth": v})` does:
replace the binding of `k` if present, otherwise append it. -/
def setField : List (String × JValue) → String → JValue → List (String × JValue)
  | [], k, v => [(k, v)]
  | p :: rest, k, v => if p.1 == k then (k, v) :: rest else p :: setField rest k v

/-- The auth auto-fill step (src/index.js:182-184):
`if (needsAuth && this._auth && !params._auth) params = Object.assign({},
params, {_auth: this._auth})`. Note the truthiness test on `params._auth`: a
falsy explicit value is also replaced. -/
def fillAuth (auth : Option JValue) (nAuth : Bool) (params : List (String × JValue)) :
    List (String × JValue) :=
  if nAuth && truthyOpt auth && !truthyOpt (getField params "_auth") then
    setField params "_auth" (auth.getD .null)
  else params

/-- `requiredParams.filter(p => params[p] == null)` (src/index.js:185):
loose equality against null, matching both `null` and `undefined`. -/
def missingOf (reqs : List String) (params : List (String × JValue)) : List String :=
  reqs.filter (fun p => looseNull (getField params p))

/-- The message of the local rejection (src/index.js:188). -/
def validationMessage (methodName : String) (missing : List String) : String :=
  "Missing required params for " ++ methodName ++ ": " ++ String.intercalate ", " missing

/-- The result of invoking a bound method: a locally rejected promise carrying
the validation message, or a frame sent with the assigned correlation id. -/
inductive BoundResult where
  | validationError (message : String)
  | sent (id : Int)
deriving Repr

/-- Invoking the closure installed by `defineMethod` (src/index.js:181-192):
auto-fill `_auth`, compute the missing required parameters, reject locally if
any are missing (sending nothing), otherwise delegate to `call`. -/
def invokeBound (st : CortexState) (methodName : String) (paramDefs : List ParamDef)
    (params : List (String × JValue)) : CortexState × BoundResult :=
  let ps := fillAuth st.auth (needsAuth paramDefs) params
  let missing := missingOf (requiredParams paramDefs) ps
  if missing.isEmpty then
    let r := call st methodName ps
    (r.1, .sent r.2)
  else
    (st, .validationError (validationMessage methodName missing))

/-- Settlement of a promise: fulfilled with a value or rejected with a reason. -/
inductive ChainOutcome (ε α : Type) where
  | ok (v : α)
  | err (e : ε)
deriving Repr

/-- Denotational model of a settled promise: the (logical) time at which it
settles and its outcome. -/
structure Deferred (ε α : Type) where
  settleTime : Nat
  outcome : ChainOutcome ε α
deriving Repr

/-- Denotation of `p.then(cb)` with no rejection handler: a rejection
propagates unchanged without invoking `cb`; a fulfillment invokes `cb` at the
predecessor's settlement time (never earlier) and adopts its result. -/
def promiseThen {ε α β : Type} (p : Deferred ε α) (f : Nat → Deferred ε β) :
    Deferred ε β :=
  match p.outcome with
  | .err e => ⟨p.settleTime, .err e⟩
  | .ok _ => f p.settleTime

/-- The chain-sugar proxy (src/index.js:34-36):
`ChainablePromise.prototype[method] = function (...args) { return
this.then(() => parent[method](...args)) }`. The callback ignores the settled
value and starts the bound-method call at the predecessor's settlement time. -/
def chainStep {ε α β : Type} (p : Deferred ε α) (boundCall : Nat → Deferred ε β) :
    Deferred ε β :=
  promiseThen p boundCall

/-- The RPC calls `Cortex.init` can issue, in order of issue. -/
inductive InitEvent where
  | getUserLogin
  | logout (username : String)
  | login (username : String)
  | authorize
deriving Repr, DecidableEq

/-- Truthiness of a possibly-undefined string argument. -/
def truthyStr : Option String → Bool
  | none => false
  | some s => s != ""

/-- JavaScript strict inequality `a !== b` for possibly-undefined strings. -/
def strictNe : Option String → Option String → Bool
  | some a, some b => a != b
  | some _, none => true
  | none, some _ => true
  | none, none => false

/-- `Cortex.init` (src/index.js:125-152) on its success path, as the sequence
of RPC calls it issues. `users` is the response to `getUserLogin`. Each later
call is issued only after the previous promise in the chain has resolved:
if `users[0]` is truthy and differs strictly from `username`, logout is
issued and the continuation receives `[]`; then, if no user remains and both
`username` and `password` are truthy, login is issued; authorize always
follows. -/
def initTrace (users : List String) (username password : Option String) :
    List InitEvent :=
  let u0 := users.head?
  let logoutNeeded := truthyStr u0 && strictNe u0 username
  let users1 := if logoutNeeded then [] else users
  let loginNeeded := !truthyStr users1.head? && truthyStr username && truthyStr password
  [InitEvent.getUserLogin]
    ++ (if logoutNeeded then [InitEvent.logout (u0.getD "")] else [])
    ++ (if loginNeeded then [InitEvent.login (username.getD "")] else [])
    ++ [InitEvent.authorize]


/-- A client state with one request (id 0) still pending in the table. -/
def pendingOneState : CortexState :=
  { CortexState.initial with
      msgId := 1
      pending := [0]
      sent := [⟨"getUserLogin", [], 0⟩] }

/-- C1: the close listener does not reject the pending entries: with request 0
pending at closure time, after the close event fires the entry is still in the
pending table and no settlement (in particular no connection-closed rejection)
has been recorded, contradicting the specified behaviour. -/
theorem close_leaves_pending_unsettled :
    (onSocketClose pendingOneState).pending = [0] ∧
    (onSocketClose pendingOneState).settled = [] ∧
    onSocketClose pendingOneState = { pendingOneState with closed := true } :=
  ⟨rfl, rfl, rfl⟩

/-- C6: a response frame `{"id":0}` with neither result nor error, matching
pending request 0, makes `_onmsg` throw a TypeError while building its log
message (dereferencing `data.error.message` on an absent error), so the
handler never runs: the state is unchanged and the call is never rejected
with the malformed-response error, contradicting the specified behaviour. -/
theorem malformed_response_crashes_handler :
    onmsg pendingOneState (.obj [("id", .num 0)]) = ⟨pendingOneState, [], true⟩ :=
  rfl

/-- C9: for every response frame whose id matches a pending request, whose
result is present but falsy, and which carries no error field, `_onmsg` throws
a TypeError (dereferencing the absent error payload on the log line) before
the handler runs: the state is unchanged, so the call is never resolved with
that result value and the request stays pending. -/
theorem falsy_result_never_settles
    (st : CortexState) (fields : List (String × JValue)) (v : JValue) (n : Int)
    (hidv : getField fields "id" = some (JValue.num n))
    (hpend : st.pending.contains n = true)
    (hres : getField fields "result" = some v)
    (hfalsy : v.truthy = false)
    (herr : getField fields "error" = none) :
    onmsg st (.obj fields) = ⟨st, [], true⟩ ∧ st.pending.contains n = true := by
  refine ⟨?_, hpend⟩
  have h1 : truthyOpt (getField fields "result") = false := by
    rw [hres]; simp [truthyOpt, hfalsy]
  have h2 : msgAccessThrows (getField fields "error") = true := by
    rw [herr]; rfl
  unfold onmsg
  simp [JValue.truthy, hidv, h1, h2]

/-- C9 witness: the frame `{"id":0,"result":0}` delivered while request 0 is
pending leaves the state unchanged with the handler having thrown. -/
theorem falsy_result_never_settles_witness :
    onmsg pendingOneState (.obj [("id", .num 0), ("result", .num 0)]) =
      ⟨pendingOneState, [], true⟩ ∧ pendingOneState.pending.contains 0 = true :=
  falsy_result_never_settles pendingOneState
    [("id", .num 0), ("result", .num 0)] (.num 0) 0 rfl rfl rfl rfl rfl

/-- C5 counterexample: the frame
`{"sessionId":"s1","timestamp":1000,"eeg":[1,2,3]}` emits no event at all (the
code's reserved keys are `sid` and `time`, so this frame has no session
identifier in the code's sense and is dropped as unrecognised), contradicting
the claimed `eeg` event. -/
theorem stream_event_spec_keys_counterexample :
    (onmsg CortexState.initial
      (.obj [("sessionId", .str "s1"), ("timestamp", .num 1000),
             ("eeg", .arr [.num 1, .num 2, .num 3])])).events = [] :=
  rfl

/-- C5 amended: for every frame carrying the session-identifier key `sid` and
no correlation id `id`, an event is emitted exactly for each key other than
the reserved `sid` and `time` keys whose value is an array, named after that
key and carrying the full frame; in particular
`{"sid":"s1","time":1000,"eeg":[1,2,3]}` emits an `eeg` event with the full
frame and `{"sid":"s1","time":1000,"status":"ok"}` emits no event. -/
theorem stream_event_routing_amended
    (st : CortexState) (fields : List (String × JValue))
    (hid : getField fields "id" = none)
    (hsid : (getField fields "sid").isSome = true) :
    ((onmsg st (.obj fields)).state = st ∧
      (onmsg st (.obj fields)).threwTypeError = false ∧
      ∀ k f, ((k, f) ∈ (onmsg st (.obj fields)).events ↔
        f = .obj fields ∧ k ∈ fields.map Prod.fst ∧ k ≠ "sid" ∧ k ≠ "time" ∧
          isArray (getField fields k) = true)) ∧
    (onmsg CortexState.initial
        (.obj [("sid", .str "s1"), ("time", .num 1000),
               ("eeg", .arr [.num 1, .num 2, .num 3])])).events =
      [("eeg", .obj [("sid", .str "s1"), ("time", .num 1000),
                     ("eeg", .arr [.num 1, .num 2, .num 3])])] ∧
    (onmsg CortexState.initial
        (.obj [("sid", .str "s1"), ("time", .num 1000),
               ("status", .str "ok")])).events = [] := by
  have hev : onmsg st (.obj fields) =
      ⟨st,
        ((fields.map Prod.fst).filter (fun k =>
          k != "sid" && k != "time" && isArray (getField fields k))).map
            (fun k => (k, .obj fields)),
        false⟩ := by
    unfold onmsg
    simp [JValue.truthy, hid, hsid]
  refine ⟨⟨by rw [hev], by rw [hev], ?_⟩, rfl, rfl⟩
  intro k f
  rw [hev]
  constructor
  · intro hm
    rcases List.mem_map.1 hm with ⟨a, ha, heq⟩
    rcases List.mem_filter.1 ha with ⟨hamem, hcond⟩
    cases heq
    simp only [Bool.and_eq_true, bne_iff_ne, ne_eq] at hcond
    exact ⟨rfl, hamem, hcond.1.1, hcond.1.2, hcond.2⟩
  · rintro ⟨rfl, hk, hs, ht, harr⟩
    exact List.mem_map.2 ⟨k, List.mem_filter.2 ⟨hk, by simp [hs, ht, harr]⟩, rfl⟩

/-- C5 amended witness: instantiation at the frame `{"sid":"s","eeg":[]}`. -/
theorem stream_event_routing_amended_witness :
    (onmsg CortexState.initial
      (.obj [("sid", .str "s"), ("eeg", .arr [])])).state = CortexState.initial :=
  (stream_event_routing_amended CortexState.initial
    [("sid", .str "s"), ("eeg", .arr [])] rfl rfl).1.1



theorem getField_setField_self (fs : List (String × JValue)) (k : String) (v : JValue) :
    getField (setField fs k v) k = some v := by
  induction fs with
  | nil => simp [setField, getField]
  | cons hd tl ih =>
    by_cases h : hd.1 = k
    · simp [setField, getField, h]
    · simp [setField, getField, h, ih]

theorem getField_setField_ne (fs : List (String × JValue)) (k k' : String) (v : JValue)
    (hne : k' ≠ k) :
    getField (setField fs k v) k' = getField fs k' := by
  induction fs with
  | nil => simp [setField, getField, Ne.symm hne]
  | cons hd tl ih =>
    by_cases h : hd.1 = k
    · simp [setField, getField, h, Ne.symm hne]
    · simp [setField, getField, h, ih]

/-- A response frame `{id: n, result: r}` with a truthy result `r`, arriving
while `n` is pending, removes `n` from the table and resolves it with `r`. -/
theorem onmsg_response (st : CortexState) (n : Int) (r : JValue)
    (hr : r.truthy = true) (hp : n ∈ st.pending) :
    onmsg st (.obj [("id", .num n), ("result", r)]) =
      ⟨{ st with
          pending := st.pending.filter (fun i => i != n)
          settled := st.settled ++ [(n, .resolved r)] }, [], false⟩ := by
  have hc : st.pending.contains n = true := by
    simp [List.contains, List.elem_iff, hp]
  have hro : truthyOpt (some r) = true := hr
  have hto : truthyOpt none = false := rfl
  have e1 : getField [("id", JValue.num n), ("result", r)] "id" =
      some (JValue.num n) := rfl
  have e2 : getField [("id", JValue.num n), ("result", r)] "result" = some r := rfl
  have e3 : getField [("id", JValue.num n), ("result", r)] "error" = none := rfl
  unfold onmsg
  simp only [e1, e2, e3]
  simp [JValue.truthy, hro, hto, msgAccessThrows, hc, requestHandler]
  exact fun h => absurd hp h

/-- C2: two calls are assigned consecutive ids N and N+1, and delivering their
response frames in the opposite order (N+1 first, then N) settles each call
with exactly the result payload of the response bearing its own id. -/
theorem call_correlation_order_independent
    (st0 : CortexState) (m1 m2 : String)
    (p1 p2 : List (String × JValue)) (r1 r2 : JValue)
    (h1 : r1.truthy = true) (h2 : r2.truthy = true) :
    (call (call st0 m1 p1).1 m2 p2).2 = (call st0 m1 p1).2 + 1 ∧
    (onmsg (onmsg (call (call st0 m1 p1).1 m2 p2).1
          (.obj [("id", .num ((call st0 m1 p1).2 + 1)), ("result", r2)])).state
        (.obj [("id", .num ((call st0 m1 p1).2)), ("result", r1)])).state.settled =
      st0.settled ++ [((call st0 m1 p1).2 + 1, CallOutcome.resolved r2),
                      ((call st0 m1 p1).2, CallOutcome.resolved r1)] := by
  refine ⟨rfl, ?_⟩
  rw [onmsg_response _ _ _ h2 (by simp [call])]
  rw [onmsg_response _ _ _ h1 (by simp [call, List.mem_filter])]
  simp [call]

/-- C2 witness: instantiation at the initial state with results "x" and "y". -/
theorem call_correlation_order_independent_witness :
    (onmsg (onmsg (call (call CortexState.initial "getUserLogin" []).1 "authorize" []).1
          (.obj [("id", .num ((call CortexState.initial "getUserLogin" []).2 + 1)),
                 ("result", .str "y")])).state
        (.obj [("id", .num ((call CortexState.initial "getUserLogin" []).2)),
               ("result", .str "x")])).state.settled =
      [((call CortexState.initial "getUserLogin" []).2 + 1, CallOutcome.resolved (.str "y")),
       ((call CortexState.initial "getUserLogin" []).2, CallOutcome.resolved (.str "x"))] :=
  (call_correlation_order_independent CortexState.initial "getUserLogin" "authorize"
    [] [] (.str "x") (.str "y") rfl rfl).2

/-- C3: if, after auth auto-fill, some required parameter has no entry in the
parameter object, the bound method rejects locally with the validation error
whose message lists every missing name (the state, in particular the list of
sent frames, is unchanged: no frame is sent), and every required name with no
entry is in the listed missing names. -/
theorem validation_missing_params
    (st : CortexState) (m : String) (defs : List ParamDef)
    (params : List (String × JValue))
    (h : ∃ p ∈ requiredParams defs,
      getField (fillAuth st.auth (needsAuth defs) params) p = none) :
    invokeBound st m defs params =
      (st, .validationError (validationMessage m
        (missingOf (requiredParams defs) (fillAuth st.auth (needsAuth defs) params)))) ∧
    ∀ p ∈ requiredParams defs,
      getField (fillAuth st.auth (needsAuth defs) params) p = none →
      p ∈ missingOf (requiredParams defs) (fillAuth st.auth (needsAuth defs) params) := by
  have hmem : ∀ p ∈ requiredParams defs,
      getField (fillAuth st.auth (needsAuth defs) params) p = none →
      p ∈ missingOf (requiredParams defs) (fillAuth st.auth (needsAuth defs) params) := by
    intro p hp hnone
    exact List.mem_filter.2 ⟨hp, by simp [looseNull, hnone]⟩
  refine ⟨?_, hmem⟩
  obtain ⟨p, hp, hnone⟩ := h
  have hne : missingOf (requiredParams defs)
      (fillAuth st.auth (needsAuth defs) params) ≠ [] :=
    List.ne_nil_of_mem (hmem p hp hnone)
  unfold invokeBound
  simp [List.isEmpty_iff, hne]

/-- C3 witness: calling `createSession` (required `headset` and `status`) with
an empty parameter object rejects listing both missing names and sends no
frame. -/
theorem validation_missing_params_witness :
    invokeBound CortexState.initial "createSession"
        [⟨"headset", true⟩, ⟨"status", true⟩] [] =
      (CortexState.initial, .validationError (validationMessage "createSession"
        (missingOf (requiredParams [⟨"headset", true⟩, ⟨"status", true⟩])
          (fillAuth CortexState.initial.auth
            (needsAuth [⟨"headset", true⟩, ⟨"status", true⟩]) [])))) :=
  (validation_missing_params CortexState.initial "createSession"
    [⟨"headset", true⟩, ⟨"status", true⟩] []
    ⟨"headset", by simp [requiredParams], rfl⟩).1

/-- A client state holding the stored token "tok" (from a completed
`authorize`). -/
def tokState : CortexState :=
  { CortexState.initial with auth := some (.str "tok") }

/-- The discovered parameter list of an auth-required method whose only
required parameter is `_auth`. -/
def authDefs : List ParamDef := [⟨"_auth", true⟩]

/-- C4 counterexample: with token "tok" stored, explicitly supplying the
(falsy) `_auth: ""` does not survive: the sent frame carries `_auth: "tok"`,
so an explicitly supplied `_auth` IS overridden when falsy. -/
theorem auth_override_counterexample :
    (invokeBound tokState "authorize" authDefs [("_auth", JValue.str "")]).1.sent =
      [⟨"authorize", [("_auth", JValue.str "tok")], 0⟩] ∧
    (invokeBound tokState "authorize" authDefs [("_auth", JValue.str "")]).2 =
      BoundResult.sent 0 :=
  ⟨rfl, rfl⟩

/-- C4 amended: a method whose parameter list contains `_auth` is
auth-required; with a truthy token stored, a call without an explicit `_auth`
entry is sent with `_auth` filled from the stored token, and an explicitly
supplied truthy `_auth` is never overridden (only a falsy explicit `_auth` is
replaced by the token). -/
theorem auth_autofill_amended
    (st : CortexState) (m : String) (defs : List ParamDef)
    (params : List (String × JValue)) (tok : JValue)
    (hdefs : ∃ p ∈ defs, p.name = "_auth")
    (htok : st.auth = some tok) (htruthy : tok.truthy = true) :
    needsAuth defs = true ∧
    (getField params "_auth" = none →
      getField (fillAuth st.auth (needsAuth defs) params) "_auth" = some tok ∧
      (missingOf (requiredParams defs) (fillAuth st.auth (needsAuth defs) params) = [] →
        (invokeBound st m defs params).2 = .sent st.msgId ∧
        (invokeBound st m defs params).1.sent =
          st.sent ++ [⟨m, fillAuth st.auth (needsAuth defs) params, st.msgId⟩])) ∧
    (∀ v, getField params "_auth" = some v → v.truthy = true →
      fillAuth st.auth (needsAuth defs) params = params) := by
  have hna : needsAuth defs = true := by
    obtain ⟨p, hp, hname⟩ := hdefs
    exact List.any_eq_true.2 ⟨p, hp, by simp [hname]⟩
  refine ⟨hna, ?_, ?_⟩
  · intro habs
    have hfill : fillAuth st.auth (needsAuth defs) params =
        setField params "_auth" tok := by
      unfold fillAuth
      rw [hna, htok, habs]
      simp [truthyOpt, htruthy]
    refine ⟨by rw [hfill]; exact getField_setField_self _ _ _, ?_⟩
    intro hmiss
    unfold invokeBound
    simp only [hmiss, List.isEmpty_nil]
    exact ⟨rfl, by simp [call]⟩
  · intro v hv htv
    unfold fillAuth
    rw [hv]
    simp [truthyOpt, htv]

/-- C4 amended witness: with `authDefs` and stored token "tok", the auto-fill
yields `_auth = "tok"`. -/
theorem auth_autofill_amended_witness :
    getField (fillAuth tokState.auth (needsAuth authDefs) []) "_auth" =
      some (JValue.str "tok") :=
  ((auth_autofill_amended tokState "authorize" authDefs [] (.str "tok")
    ⟨⟨"_auth", true⟩, by simp [authDefs], rfl⟩ rfl rfl).2.1 rfl).1

/-- C10 counterexample: for the auth-required method bound over `authDefs`,
with token "tok" stored, supplying the required `_auth` explicitly as null
does not reject like an omission would have to: the loose-null check is
preceded by the auto-fill, which replaces the null, and a frame is sent. -/
theorem null_param_counterexample :
    (invokeBound tokState "createSession" authDefs [("_auth", JValue.null)]).2 =
      BoundResult.sent 0 ∧
    (invokeBound tokState "createSession" authDefs [("_auth", JValue.null)]).1.sent =
      [⟨"createSession", [("_auth", JValue.str "tok")], 0⟩] :=
  ⟨rfl, rfl⟩

/-- C10 amended: a required parameter explicitly supplied as null is treated
exactly like an omitted one by the missing-parameter check (loose equality
against null matches both null and undefined), so — unless the parameter is
`_auth` being auto-filled from a truthy stored token — the call rejects with
the validation error listing that parameter's name and no frame is sent. -/
theorem null_param_rejected_amended
    (st : CortexState) (m : String) (defs : List ParamDef)
    (params : List (String × JValue)) (name : String)
    (hreq : name ∈ requiredParams defs)
    (hnull : getField params name = some JValue.null)
    (hnota : ¬(name = "_auth" ∧ truthyOpt st.auth = true ∧ needsAuth defs = true)) :
    invokeBound st m defs params =
      (st, .validationError (validationMessage m
        (missingOf (requiredParams defs) (fillAuth st.auth (needsAuth defs) params)))) ∧
    name ∈ missingOf (requiredParams defs) (fillAuth st.auth (needsAuth defs) params) := by
  have hfield : getField (fillAuth st.auth (needsAuth defs) params) name =
      some JValue.null := by
    unfold fillAuth
    split
    · rename_i hcond
      simp only [Bool.and_eq_true] at hcond
      have hne : name ≠ "_auth" := by
        intro he
        exact hnota ⟨he, hcond.1.2, hcond.1.1⟩
      rw [getField_setField_ne _ _ _ _ hne]
      exact hnull
    · exact hnull
  have hmem : name ∈ missingOf (requiredParams defs)
      (fillAuth st.auth (needsAuth defs) params) :=
    List.mem_filter.2 ⟨hreq, by simp [looseNull, hfield]⟩
  have hne : missingOf (requiredParams defs)
      (fillAuth st.auth (needsAuth defs) params) ≠ [] :=
    List.ne_nil_of_mem hmem
  refine ⟨?_, hmem⟩
  unfold invokeBound
  simp [List.isEmpty_iff, hne]

/-- C10 amended witness: omission-like rejection for `headset: null` on a
method requiring `headset`, with nothing sent. -/
theorem null_param_rejected_amended_witness :
    invokeBound CortexState.initial "createSession" [⟨"headset", true⟩]
        [("headset", JValue.null)] =
      (CortexState.initial, .validationError (validationMessage "createSession"
        (missingOf (requiredParams [⟨"headset", true⟩])
          (fillAuth CortexState.initial.auth (needsAuth [⟨"headset", true⟩])
            [("headset", JValue.null)])))) :=
  (null_param_rejected_amended CortexState.initial "createSession"
    [⟨"headset", true⟩] [("headset", JValue.null)] "headset"
    (by simp [requiredParams]) rfl (by simp)).1

/-- C7: a chain-sugar step on a fulfilled chain starts exactly at the
predecessor's settlement time (never earlier) and adopts the bound call's
result; on an already-failed chain the step never invokes the bound method —
its result is the same for every bound call — and propagates the original
failure unchanged. -/
theorem chain_sugar_sequencing {ε α β : Type}
    (p : Deferred ε α) (f : Nat → Deferred ε β) :
    (∀ v, p.outcome = ChainOutcome.ok v → chainStep p f = f p.settleTime) ∧
    (∀ e, p.outcome = ChainOutcome.err e →
      chainStep p f = ⟨p.settleTime, ChainOutcome.err e⟩ ∧
      ∀ g : Nat → Deferred ε β, chainStep p f = chainStep p g) := by
  constructor
  · intro v hv
    simp [chainStep, promiseThen, hv]
  · intro e he
    constructor
    · simp [chainStep, promiseThen, he]
    · intro g
      simp [chainStep, promiseThen, he]

/-- C7 witness: a failed chain propagates its failure through a chain-sugar
step without running the bound call. -/
theorem chain_sugar_sequencing_witness :
    chainStep (⟨3, ChainOutcome.err "boom"⟩ : Deferred String Nat)
        (fun t => ⟨t + 1, ChainOutcome.ok 7⟩) =
      ⟨3, ChainOutcome.err "boom"⟩ :=
  ((chain_sugar_sequencing ⟨3, ChainOutcome.err "boom"⟩
    (fun t => ⟨t + 1, ChainOutcome.ok 7⟩)).2 "boom" rfl).1

/-- C8: when init is given a username and password and a different user is
currently logged in, the issued call sequence is getUserLogin, then logout of
the logged-in user, then login of the requested user, then authorize — the
logout completes (its continuation runs) before login is issued. -/
theorem init_logout_before_login
    (users : List String) (u b p : String)
    (hu : users.head? = some u) (hne : u ≠ "") (hdiff : u ≠ b)
    (hb : b ≠ "") (hp : p ≠ "") :
    initTrace users (some b) (some p) =
      [InitEvent.getUserLogin, InitEvent.logout u, InitEvent.login b,
       InitEvent.authorize] := by
  have h1 : (u != "") = true := bne_iff_ne.2 hne
  have h2 : (u != b) = true := bne_iff_ne.2 hdiff
  have h3 : (b != "") = true := bne_iff_ne.2 hb
  have h4 : (p != "") = true := bne_iff_ne.2 hp
  unfold initTrace
  rw [hu]
  simp [truthyStr, strictNe, h1, h2, h3, h4]

/-- C8 witness: `init({username:"b", password:"p"})` with user "a" logged in
issues logout "a" strictly before login "b". -/
theorem init_logout_before_login_witness :
    initTrace ["a"] (some "b") (some "p") =
      [InitEvent.getUserLogin, InitEvent.logout "a", InitEvent.login "b",
       InitEvent.authorize] :=
  init_logout_before_login ["a"] "a" "b" "p" rfl (by decide) (by decide)
    (by decide) (by decide)


end Cortex
